import Mathlib

/-!
Verification of the pakketpunten repository: a shallow embedding, in Lean 4,
of the data model and the operations of the parcel-pickup-point aggregation
system (Next.js webapp with a cooperating batch pipeline), together with
theorems settling the specification's claims about them.

The embedding conventions:
* TypeScript numbers that hold coordinates or percentages become `ℚ`
  (exact rationals); counts and timestamps become `ℕ`.
* JavaScript strings become Lean `String`, with the JavaScript string
  operations (`toLowerCase`, `trim`, `replace`) re-implemented over
  `List Char` so that they reduce inside the kernel.
* Fallible or stateful route handlers become pure functions over explicit
  request/state parameters, returning a response datatype.
-/

/-! ## Deduplication and national merge (batch pipeline)

Modelled from the spec: the Python batch pipeline (grid fetcher,
per-municipality aggregator, national merge) is not part of the sources
under inspection; its deduplication key is specified in §3 of the spec
("rounded latitude (fixed precision, e.g. 5 decimal places), rounded
longitude, carrier, and display name"), the idempotent keyed insertion in
§4.1 step 4, and the national merge in §4.4 ("concatenate all location
features, then perform a single dedup pass using the composite key from §3;
first occurrence wins").
-/

/-- Modelled from the spec (§3, "Location record"): carrier name, display
name, street fields, WGS84 latitude/longitude, point-type tag. -/
structure LocationRecord where
  carrier : String
  displayName : String
  streetName : String
  streetNumber : String
  latitude : ℚ
  longitude : ℚ
  pointType : String
deriving DecidableEq

/-- Rounding of a coordinate to 5 decimal places (≈ 1 m), as prescribed for
the deduplication key in §3 of the spec. -/
def roundCoord5 (q : ℚ) : ℤ := round (q * 100000)

/-- Modelled from the spec (§3, "Deduplication key"): composite of rounded
latitude, rounded longitude, carrier, and display name. -/
structure DedupKey where
  lat5 : ℤ
  lng5 : ℤ
  carrier : String
  displayName : String
deriving DecidableEq

/-- The deduplication key of a location record. -/
def dedupKey (r : LocationRecord) : DedupKey :=
  ⟨roundCoord5 r.latitude, roundCoord5 r.longitude, r.carrier, r.displayName⟩

/-- Modelled from the spec (§4.1 step 4): insertion into the running
deduplicated set, keyed by `dedupKey`; a record whose key is already present
is dropped, so the first occurrence of each key wins. -/
def dedupInsert (s : List LocationRecord) (r : LocationRecord) : List LocationRecord :=
  if ∃ x ∈ s, dedupKey x = dedupKey r then s else s ++ [r]

/-- Modelled from the spec (§4.4, "National Merge"): concatenate all
per-municipality location features, then perform a single dedup pass with
`dedupInsert`; first occurrence wins. -/
def mergeNational (collections : List (List LocationRecord)) : List LocationRecord :=
  collections.flatten.foldl dedupInsert []

/-- The key list of a record list. -/
def keyList (l : List LocationRecord) : List DedupKey := l.map dedupKey

/-- Modelled from the spec (§8, "equality iff no duplicate keys existed
across inputs"): no deduplication key occurs in more than one input
collection. -/
def noKeySharedAcross (collections : List (List LocationRecord)) : Prop :=
  List.Pairwise (fun c₁ c₂ => ∀ r₁ ∈ c₁, ∀ r₂ ∈ c₂, dedupKey r₁ ≠ dedupKey r₂) collections

lemma keyList_mem {l : List LocationRecord} {k : DedupKey} :
    k ∈ keyList l ↔ ∃ x ∈ l, dedupKey x = k := by
  simp [keyList]

lemma keyList_append (l₁ l₂ : List LocationRecord) :
    keyList (l₁ ++ l₂) = keyList l₁ ++ keyList l₂ := by
  simp [keyList]

lemma dedupInsert_of_mem {s : List LocationRecord} {r : LocationRecord}
    (h : ∃ x ∈ s, dedupKey x = dedupKey r) : dedupInsert s r = s := by
  simp [dedupInsert, h]

lemma dedupInsert_of_not_mem {s : List LocationRecord} {r : LocationRecord}
    (h : ¬ ∃ x ∈ s, dedupKey x = dedupKey r) : dedupInsert s r = s ++ [r] := by
  simp only [dedupInsert, if_neg h]

lemma keyList_cons (r : LocationRecord) (rs : List LocationRecord) :
    keyList (r :: rs) = dedupKey r :: keyList rs := by
  simp [keyList]

/-- Keys of the accumulated result: exactly the keys of the accumulator and
of the inserted list. -/
lemma keyList_foldl_dedupInsert (l : List LocationRecord) :
    ∀ (acc : List LocationRecord) (k : DedupKey),
      k ∈ keyList (l.foldl dedupInsert acc) ↔ k ∈ keyList acc ∨ k ∈ keyList l := by
  induction l with
  | nil => intro acc k; simp [keyList]
  | cons r rs ih =>
    intro acc k
    rw [List.foldl_cons, ih, keyList_cons, List.mem_cons]
    by_cases h : ∃ x ∈ acc, dedupKey x = dedupKey r
    · rw [dedupInsert_of_mem h]
      constructor
      · rintro (hk | hk)
        · exact Or.inl hk
        · exact Or.inr (Or.inr hk)
      · rintro (hk | (hk | hk))
        · exact Or.inl hk
        · obtain ⟨x, hx, hxk⟩ := h
          exact Or.inl (keyList_mem.mpr ⟨x, hx, hxk.trans hk.symm⟩)
        · exact Or.inr hk
    · rw [dedupInsert_of_not_mem h, keyList_append, List.mem_append]
      have hsingle : k ∈ keyList [r] ↔ k = dedupKey r := by simp [keyList]
      rw [hsingle]
      tauto

/-- The accumulated result keeps its key list duplicate-free. -/
lemma nodup_keyList_foldl_dedupInsert (l : List LocationRecord) :
    ∀ (acc : List LocationRecord), (keyList acc).Nodup →
      (keyList (l.foldl dedupInsert acc)).Nodup := by
  induction l with
  | nil => intro acc h; simpa using h
  | cons r rs ih =>
    intro acc hacc
    rw [List.foldl_cons]
    apply ih
    by_cases h : ∃ x ∈ acc, dedupKey x = dedupKey r
    · rwa [dedupInsert_of_mem h]
    · rw [dedupInsert_of_not_mem h, keyList_append]
      refine List.Nodup.append hacc (by simp [keyList]) ?_
      intro k hk hk2
      have hkr : k = dedupKey r := by simpa [keyList] using hk2
      subst hkr
      exact h (keyList_mem.mp hk)

/-- The result of the dedup pass is (the accumulator extended by) a sublist
of the inserted list: nothing is invented and order is preserved, i.e. the
pass keeps first occurrences in place. -/
lemma foldl_dedupInsert_sublist (l : List LocationRecord) :
    ∀ acc : List LocationRecord,
      ∃ s, l.foldl dedupInsert acc = acc ++ s ∧ s.Sublist l := by
  induction l with
  | nil => intro acc; exact ⟨[], by simp⟩
  | cons r rs ih =>
    intro acc
    rw [List.foldl_cons]
    by_cases h : ∃ x ∈ acc, dedupKey x = dedupKey r
    · obtain ⟨s, hs, hsub⟩ := ih acc
      rw [dedupInsert_of_mem h] at *
      exact ⟨s, hs, hsub.cons r⟩
    · obtain ⟨s, hs, hsub⟩ := ih (acc ++ [r])
      rw [dedupInsert_of_not_mem h] at *
      exact ⟨r :: s, by simpa using hs, hsub.cons₂ r⟩

/-- The merged length is the number of distinct keys in the concatenation. -/
lemma mergeNational_length (L : List (List LocationRecord)) :
    (mergeNational L).length = (keyList L.flatten).toFinset.card := by
  have hnodup : (keyList (mergeNational L)).Nodup :=
    nodup_keyList_foldl_dedupInsert _ [] (by simp [keyList])
  have hmem : ∀ k, k ∈ keyList (mergeNational L) ↔ k ∈ keyList L.flatten := by
    intro k
    rw [mergeNational, keyList_foldl_dedupInsert]
    simp [keyList]
  have hset : (keyList (mergeNational L)).toFinset = (keyList L.flatten).toFinset := by
    apply Finset.ext
    intro k
    simp only [List.mem_toFinset]
    exact hmem k
  calc (mergeNational L).length
      = (keyList (mergeNational L)).length := by simp [keyList]
    _ = (keyList (mergeNational L)).toFinset.card := (List.toFinset_card_of_nodup hnodup).symm
    _ = (keyList L.flatten).toFinset.card := by rw [hset]

lemma dedup_length_eq_iff_nodup {α : Type} [DecidableEq α] (l : List α) :
    l.dedup.length = l.length ↔ l.Nodup := by
  constructor
  · intro h
    rw [← List.dedup_eq_self]
    exact (List.dedup_sublist l).eq_of_length h
  · intro h
    rw [List.dedup_eq_self.mpr h]

lemma keyList_flatten_nodup_iff (L : List (List LocationRecord)) :
    (keyList L.flatten).Nodup ↔
      (∀ c ∈ L, (keyList c).Nodup) ∧ noKeySharedAcross L := by
  have hmap : keyList L.flatten = (L.map keyList).flatten := by
    rw [keyList, List.map_flatten]
    rfl
  rw [hmap, List.nodup_flatten]
  constructor
  · rintro ⟨h1, h2⟩
    refine ⟨fun c hc => h1 _ (List.mem_map_of_mem keyList hc), ?_⟩
    have := (List.pairwise_map).mp h2
    refine this.imp ?_
    intro c₁ c₂ hdisj r₁ hr₁ r₂ hr₂ heq
    exact hdisj (keyList_mem.mpr ⟨r₁, hr₁, rfl⟩) (keyList_mem.mpr ⟨r₂, hr₂, heq.symm⟩)
  · rintro ⟨h1, h2⟩
    constructor
    · intro l hl
      obtain ⟨c, hc, rfl⟩ := List.mem_map.mp hl
      exact h1 c hc
    · rw [List.pairwise_map]
      refine h2.imp ?_
      intro c₁ c₂ hne k hk₁ hk₂
      obtain ⟨r₁, hr₁, rfl⟩ := keyList_mem.mp hk₁
      obtain ⟨r₂, hr₂, heq⟩ := keyList_mem.mp hk₂
      exact hne r₁ hr₁ r₂ hr₂ heq.symm

/-- C3: for every national merge of per-municipality feature collections
(each internally deduplicated, as the pipeline of §4.1 guarantees), the
merged location count is at most the sum of the per-municipality counts,
with equality if and only if no deduplication key occurred in more than one
input; the merge keeps an order-preserving selection (first occurrence wins)
of the concatenated inputs and covers every input key. -/
theorem c3_national_merge_count (L : List (List LocationRecord))
    (hdedup : ∀ c ∈ L, (keyList c).Nodup) :
    (mergeNational L).length ≤ (L.map List.length).sum
    ∧ ((mergeNational L).length = (L.map List.length).sum ↔ noKeySharedAcross L)
    ∧ (mergeNational L).Sublist L.flatten
    ∧ (∀ r ∈ L.flatten, ∃ x ∈ mergeNational L, dedupKey x = dedupKey r) := by
  have hlen := mergeNational_length L
  have hcard : (keyList L.flatten).toFinset.card = (keyList L.flatten).dedup.length :=
    List.card_toFinset _
  have hflatlen : (keyList L.flatten).length = (L.map List.length).sum := by
    simp [keyList, List.length_flatten, Function.comp_def]
  refine ⟨?_, ?_, ?_, ?_⟩
  · rw [hlen, hcard, ← hflatlen]
    exact (List.dedup_sublist _).length_le
  · rw [hlen, hcard, ← hflatlen]
    rw [dedup_length_eq_iff_nodup, keyList_flatten_nodup_iff]
    constructor
    · rintro ⟨_, h⟩; exact h
    · intro h; exact ⟨hdedup, h⟩
  · obtain ⟨s, hs, hsub⟩ := foldl_dedupInsert_sublist L.flatten []
    rw [mergeNational, hs]
    simpa using hsub
  · intro r hr
    have : dedupKey r ∈ keyList (mergeNational L) := by
      rw [mergeNational, keyList_foldl_dedupInsert]
      exact Or.inr (keyList_mem.mpr ⟨r, hr, rfl⟩)
    exact keyList_mem.mp this

/-- A record sharing a key with `r₁` finds a representative after inserting
`r₁`. -/
lemma dedupInsert_hasKey (s : List LocationRecord) (r₁ r₂ : LocationRecord)
    (h : dedupKey r₁ = dedupKey r₂) :
    ∃ x ∈ dedupInsert s r₁, dedupKey x = dedupKey r₂ := by
  by_cases hs : ∃ x ∈ s, dedupKey x = dedupKey r₁
  · rw [dedupInsert_of_mem hs]
    obtain ⟨x, hx, hxk⟩ := hs
    exact ⟨x, hx, hxk.trans h⟩
  · rw [dedupInsert_of_not_mem hs]
    exact ⟨r₁, by simp, h⟩

/-- C4: keyed deduplication insertion is idempotent — inserting the same
record twice leaves the set (and hence its size) as after inserting it once —
and of two records with the same composite key only one is retained. -/
theorem c4_dedup_insert_idempotent :
    (∀ (s : List LocationRecord) (r : LocationRecord),
        dedupInsert (dedupInsert s r) r = dedupInsert s r
        ∧ (dedupInsert (dedupInsert s r) r).length = (dedupInsert s r).length)
    ∧ (∀ (s : List LocationRecord) (r₁ r₂ : LocationRecord),
        dedupKey r₁ = dedupKey r₂ →
          dedupInsert (dedupInsert s r₁) r₂ = dedupInsert s r₁) := by
  have hmain : ∀ (s : List LocationRecord) (r₁ r₂ : LocationRecord),
      dedupKey r₁ = dedupKey r₂ → dedupInsert (dedupInsert s r₁) r₂ = dedupInsert s r₁ :=
    fun s r₁ r₂ h => dedupInsert_of_mem (dedupInsert_hasKey s r₁ r₂ h)
  exact ⟨fun s r => ⟨hmain s r r rfl, by rw [hmain s r r rfl]⟩, hmain⟩

/-- Two sample records used by concrete witnesses: same coordinates,
carrier and display name, hence the same deduplication key, though the
street details differ. -/
def sampleRecordA : LocationRecord :=
  ⟨"DHL", "Kiosk Centrum", "Stationsweg", "1", 52.5, 4.8, "servicepunt"⟩

/-- A second sample record with the same deduplication key as
`sampleRecordA`. -/
def sampleRecordB : LocationRecord :=
  ⟨"DHL", "Kiosk Centrum", "Stationsweg", "1b", 52.5, 4.8, "locker"⟩

/-- A third sample record with a different deduplication key. -/
def sampleRecordC : LocationRecord :=
  ⟨"PostNL", "Supermarkt Zuid", "Dorpsstraat", "2", 51.9, 4.5, "pakketautomaat"⟩

/-- Witness for C3 at a concrete merge: two single-record municipalities
merge to at most the summed count. -/
theorem c3_national_merge_count_witness :
    (∀ c ∈ [[sampleRecordA], [sampleRecordB]], (keyList c).Nodup)
    ∧ (mergeNational [[sampleRecordA], [sampleRecordB]]).length
        ≤ ([[sampleRecordA], [sampleRecordB]].map List.length).sum :=
  ⟨by simp [keyList], (c3_national_merge_count [[sampleRecordA], [sampleRecordB]]
    (by simp [keyList])).1⟩

/-- Witness for C4 at concrete records with equal keys. -/
theorem c4_dedup_insert_idempotent_witness :
    dedupKey sampleRecordA = dedupKey sampleRecordB
    ∧ dedupInsert (dedupInsert [sampleRecordC] sampleRecordA) sampleRecordB
        = dedupInsert [sampleRecordC] sampleRecordA :=
  ⟨rfl, c4_dedup_insert_idempotent.2 [sampleRecordC] sampleRecordA sampleRecordB rfl⟩

/-! ## Webapp data model (src/webapp types, `pakketpunten` type declarations)

Embedded from the TypeScript interfaces `PakketpuntProperties`,
`BufferProperties`, `FeatureProperties`, `PakketpuntFeature`,
`PakketpuntData` and `Filters`.
-/

/-- `PakketpuntProperties` (discriminant `type: 'pakketpunt'` is carried by
the `FeatureProperties` constructor below). -/
structure PakketpuntProperties where
  locatieNaam : String
  straatNaam : String
  straatNr : String
  vervoerder : String
  puntType : String
  bezettingsgraad : ℚ
  latitude : ℚ
  longitude : ℚ
deriving DecidableEq

/-- The discriminant of `BufferProperties.type`:
`'buffer_union_300m' | 'buffer_union_400m' | 'boundary'`. -/
inductive BufferKind
  | buffer300
  | buffer400
  | boundary
deriving DecidableEq

/-- `BufferProperties`: buffer kind with optional radius and municipality. -/
structure BufferProperties where
  kind : BufferKind
  buffer_m : Option ℚ
  gemeente : Option String
deriving DecidableEq

/-- `FeatureProperties = PakketpuntProperties | BufferProperties`. -/
inductive FeatureProperties
  | pakketpunt (props : PakketpuntProperties)
  | buffer (props : BufferProperties)
deriving DecidableEq

/-- GeoJSON geometry: `'Point' | 'Polygon' | 'MultiPolygon'` with
coordinates; a point is `[lng, lat]`. -/
inductive Geometry
  | point (lng lat : ℚ)
  | polygon (rings : List (List (ℚ × ℚ)))
  | multiPolygon (polygons : List (List (List (ℚ × ℚ))))
deriving DecidableEq

/-- `PakketpuntFeature`. -/
structure PakketpuntFeature where
  geometry : Geometry
  properties : FeatureProperties
deriving DecidableEq

/-- The `metadata` block of `PakketpuntData`: municipality name, slug,
generation timestamp, total point count, provider list, and bounds as
`[minx, miny, maxx, maxy]`. -/
structure PakketpuntMetadata where
  gemeente : String
  slug : String
  generated_at : String
  total_points : ℕ
  providers : List String
  bounds : ℚ × ℚ × ℚ × ℚ
deriving DecidableEq

/-- `PakketpuntData`: a FeatureCollection with a metadata block and a
features array. -/
structure PakketpuntData where
  metadata : PakketpuntMetadata
  features : List PakketpuntFeature
deriving DecidableEq

/-- `Filters` (webapp filter state). -/
structure Filters where
  providers : List String
  showBuffer300 : Bool
  showBuffer400 : Bool
  showBufferFill : Bool
  showBoundary : Bool
  useSimpleMarkers : Bool
  minOccupancy : ℚ
  maxOccupancy : ℚ
  showMockData : Bool

/-- C7: a per-municipality output value is exactly a features array together
with a metadata block made of precisely the municipality name, slug,
generation timestamp, total point count, provider list and bounding box —
two outputs agreeing on those components are equal, and every feature is a
location point or a buffer/boundary feature. -/
theorem c7_output_shape :
    (∀ d₁ d₂ : PakketpuntData,
      d₁ = d₂ ↔
        (d₁.metadata.gemeente = d₂.metadata.gemeente
          ∧ d₁.metadata.slug = d₂.metadata.slug
          ∧ d₁.metadata.generated_at = d₂.metadata.generated_at
          ∧ d₁.metadata.total_points = d₂.metadata.total_points
          ∧ d₁.metadata.providers = d₂.metadata.providers
          ∧ d₁.metadata.bounds = d₂.metadata.bounds
          ∧ d₁.features = d₂.features))
    ∧ (∀ f : PakketpuntFeature,
        (∃ p, f.properties = FeatureProperties.pakketpunt p)
        ∨ (∃ b, f.properties = FeatureProperties.buffer b)) := by
  constructor
  · rintro ⟨⟨g₁, s₁, t₁, n₁, p₁, b₁⟩, fs₁⟩ ⟨⟨g₂, s₂, t₂, n₂, p₂, b₂⟩, fs₂⟩
    simp [PakketpuntData.mk.injEq, PakketpuntMetadata.mk.injEq, and_assoc]
  · intro f
    cases hf : f.properties with
    | pakketpunt p => exact Or.inl ⟨p, rfl⟩
    | buffer b => exact Or.inr ⟨b, rfl⟩

/-! ## Client-side filtering (webapp `Map` component and `StatsPanel`) -/

/-- Whether a feature is a `pakketpunt` feature. -/
def isPakketpunt (f : PakketpuntFeature) : Bool :=
  match f.properties with
  | FeatureProperties.pakketpunt _ => true
  | FeatureProperties.buffer _ => false

/-- The `Map` component's `filteredFeatures`: a pakketpunt passes iff its
`vervoerder` is among the selected providers; buffer and boundary features
pass according to their visibility flags. -/
def filteredFeatures (filters : Filters) (features : List PakketpuntFeature) :
    List PakketpuntFeature :=
  features.filter fun feature =>
    match feature.properties with
    | FeatureProperties.pakketpunt props => filters.providers.contains props.vervoerder
    | FeatureProperties.buffer props =>
      match props.kind with
      | BufferKind.buffer300 => filters.showBuffer300
      | BufferKind.buffer400 => filters.showBuffer400
      | BufferKind.boundary => filters.showBoundary

/-- The `StatsPanel`'s `filteredPoints`: among the pakketpunt features, keep
those whose provider is selected and whose occupancy lies in
`[minOccupancy, maxOccupancy]`. (The panel filters points first, so the
non-pakketpunt branch is unreachable.) -/
def statsFilteredPoints (filters : Filters) (features : List PakketpuntFeature) :
    List PakketpuntFeature :=
  (features.filter isPakketpunt).filter fun feature =>
    match feature.properties with
    | FeatureProperties.pakketpunt props =>
      filters.providers.contains props.vervoerder
        && decide (props.bezettingsgraad ≥ filters.minOccupancy)
        && decide (props.bezettingsgraad ≤ filters.maxOccupancy)
    | FeatureProperties.buffer _ => false

/-- Filters used by the C1 counterexample: DHL selected, occupancy window
[50, 100]. -/
def c1Filters : Filters :=
  ⟨["DHL"], true, true, false, false, false, 50, 100, false⟩

/-- Pakketpunt properties with occupancy 0, outside the [50, 100] window. -/
def c1Props : PakketpuntProperties :=
  ⟨"Kiosk Centrum", "Stationsweg", "1", "DHL", "servicepunt", 0, 52.5, 4.8⟩

/-- A pakketpunt feature with occupancy 0. -/
def c1Feature : PakketpuntFeature :=
  ⟨Geometry.point 4.8 52.5, FeatureProperties.pakketpunt c1Props⟩

/-- C1 counterexample: the map's client-side filter admits a pakketpunt
whose occupancy (0) lies outside the selected occupancy window ([50, 100]),
so admission is not conditional on the occupancy bounds as claimed. -/
theorem c1_filter_counterexample :
    c1Feature ∈ filteredFeatures c1Filters [c1Feature]
    ∧ c1Props.bezettingsgraad < c1Filters.minOccupancy := by
  constructor
  · simp [filteredFeatures, c1Feature, c1Filters, c1Props]
  · norm_num [c1Props, c1Filters]

/-- C1 as amended: the `Map` component's filter admits a loaded pakketpunt
feature exactly when its carrier is among the selected providers — the
occupancy bounds play no role there — while the `StatsPanel`'s
`filteredPoints` admits it exactly when the carrier is selected AND the
occupancy lies within `[minOccupancy, maxOccupancy]` inclusive. -/
theorem c1_filter_amended (filters : Filters) (features : List PakketpuntFeature)
    (f : PakketpuntFeature) (p : PakketpuntProperties)
    (hp : f.properties = FeatureProperties.pakketpunt p) :
    (f ∈ filteredFeatures filters features
      ↔ f ∈ features ∧ filters.providers.contains p.vervoerder = true)
    ∧ (f ∈ statsFilteredPoints filters features
      ↔ f ∈ features ∧ filters.providers.contains p.vervoerder = true
          ∧ filters.minOccupancy ≤ p.bezettingsgraad
          ∧ p.bezettingsgraad ≤ filters.maxOccupancy) := by
  constructor
  · rw [filteredFeatures, List.mem_filter, hp]
  · rw [statsFilteredPoints, List.mem_filter, List.mem_filter, hp]
    simp only [isPakketpunt, hp, Bool.and_eq_true, decide_eq_true_eq, ge_iff_le]
    tauto

/-- In-range pakketpunt properties used by the C1 witness. -/
def c1PropsOk : PakketpuntProperties :=
  ⟨"Kiosk Centrum", "Stationsweg", "1", "DHL", "servicepunt", 75, 52.5, 4.8⟩

/-- In-range pakketpunt feature used by the C1 witness. -/
def c1FeatureOk : PakketpuntFeature :=
  ⟨Geometry.point 4.8 52.5, FeatureProperties.pakketpunt c1PropsOk⟩

/-- Witness for the amended C1 at a concrete feature. -/
theorem c1_filter_amended_witness :
    (c1FeatureOk ∈ filteredFeatures c1Filters [c1FeatureOk]
      ↔ c1FeatureOk ∈ [c1FeatureOk] ∧ c1Filters.providers.contains c1PropsOk.vervoerder = true)
    ∧ (c1FeatureOk ∈ statsFilteredPoints c1Filters [c1FeatureOk]
      ↔ c1FeatureOk ∈ [c1FeatureOk] ∧ c1Filters.providers.contains c1PropsOk.vervoerder = true
          ∧ c1Filters.minOccupancy ≤ c1PropsOk.bezettingsgraad
          ∧ c1PropsOk.bezettingsgraad ≤ c1Filters.maxOccupancy) :=
  c1_filter_amended c1Filters [c1FeatureOk] c1FeatureOk c1PropsOk rfl

/-! ## Marker rendering strategy (webapp `Map` component) -/

/-- `PERFORMANCE_CONFIG.SIMPLE_MARKER_THRESHOLD` from the `Map` component. -/
def SIMPLE_MARKER_THRESHOLD : ℕ := 3000

/-- `PERFORMANCE_CONFIG.DETAILED_VIEW_ZOOM` from the `Map` component. -/
def DETAILED_VIEW_ZOOM : ℕ := 11

/-- The two Leaflet rendering strategies: the Canvas renderer
(`preferCanvas`) versus DOM markers. -/
inductive Renderer
  | canvas
  | dom
deriving DecidableEq

/-- The `Map` component's `useSimpleMarkers`: taken from the user's filter
flag; the computed `markerCount = points.length` is not consulted. -/
def useSimpleMarkersChoice (filters : Filters) (points : List PakketpuntFeature) : Bool :=
  filters.useSimpleMarkers

/-- The renderer passed to `MapContainer`: `preferCanvas={useSimpleMarkers}`. -/
def rendererChoice (filters : Filters) (points : List PakketpuntFeature) : Renderer :=
  if useSimpleMarkersChoice filters points then Renderer.canvas else Renderer.dom

/-- Filter state with the simple-markers flag raised. -/
def c2FiltersSimple : Filters :=
  ⟨["DHL"], true, true, false, false, true, 0, 100, false⟩

/-- Filter state with the simple-markers flag lowered. -/
def c2FiltersDetailed : Filters :=
  ⟨["DHL"], true, true, false, false, false, 0, 100, false⟩

/-- C2 counterexample: two states over the same (empty) dataset — point
counts equal and on the same side of the configured threshold — nonetheless
get different renderers, because the choice follows the user's
`useSimpleMarkers` flag, not the point count. -/
theorem c2_renderer_counterexample :
    ([] : List PakketpuntFeature).length < SIMPLE_MARKER_THRESHOLD
    ∧ rendererChoice c2FiltersSimple [] ≠ rendererChoice c2FiltersDetailed [] := by
  constructor
  · norm_num [SIMPLE_MARKER_THRESHOLD]
  · simp [rendererChoice, useSimpleMarkersChoice, c2FiltersSimple, c2FiltersDetailed]

/-- C2 as amended: the renderer choice is a function of the
`useSimpleMarkers` filter flag alone — Canvas exactly when the flag is set —
and is therefore independent of the dataset and its point count. -/
theorem c2_renderer_amended (filters : Filters)
    (points points' : List PakketpuntFeature) :
    rendererChoice filters points = rendererChoice filters points'
    ∧ (rendererChoice filters points = Renderer.canvas ↔ filters.useSimpleMarkers = true) := by
  constructor
  · rfl
  · rw [rendererChoice, useSimpleMarkersChoice]
    cases h : filters.useSimpleMarkers <;> simp [h]

/-! ## JavaScript string primitives

Re-implementations, over `List Char`, of the JavaScript string operations the
route handlers use (`toLowerCase`, `trim`, and `replace` with a
character-class regex), written so that they reduce inside the kernel.
-/

/-- JavaScript `toLowerCase` (ASCII case mapping, as exercised here). -/
def jsToLower (s : String) : String := ⟨s.data.map Char.toLower⟩

/-- JavaScript `trim`: strip leading and trailing whitespace. -/
def jsTrim (s : String) : String :=
  ⟨((s.data.dropWhile Char.isWhitespace).reverse.dropWhile Char.isWhitespace).reverse⟩

namespace MunicipalityApi

/-! ## REST endpoint `/api/v1/municipality/[identifier]` (route.ts) -/

/-- The `Municipality` record of the municipality route: name, slug,
province, population, and optional CBS code. -/
structure Municipality where
  name : String
  slug : String
  province : String
  population : ℕ
  code : Option String
deriving DecidableEq

/-- `RATE_LIMIT = 15` requests per window. -/
def RATE_LIMIT : ℕ := 15

/-- `RATE_LIMIT_WINDOW = 60 * 60 * 1000` milliseconds. -/
def RATE_LIMIT_WINDOW : ℕ := 60 * 60 * 1000

/-- One IP's entry in the in-memory `rateLimitStore`. -/
structure RateRecord where
  count : ℕ
  resetTime : ℕ
deriving DecidableEq

/-- `checkRateLimit` for one IP: given the current time and the IP's stored
record (if any), return whether the request is allowed together with the
updated record. -/
def checkRateLimit (now : ℕ) (record : Option RateRecord) : Bool × RateRecord :=
  match record with
  | none => (true, ⟨1, now + RATE_LIMIT_WINDOW⟩)
  | some r =>
    if r.resetTime < now then (true, ⟨1, now + RATE_LIMIT_WINDOW⟩)
    else if RATE_LIMIT ≤ r.count then (false, r)
    else (true, ⟨r.count + 1, r.resetTime⟩)

/-- A sequence of requests from one IP, by arrival time: the list of
accept/deny outcomes. -/
def processRequests (record : Option RateRecord) : List ℕ → List Bool
  | [] => []
  | now :: rest =>
    let step := checkRateLimit now record
    step.1 :: processRequests (some step.2) rest

/-- `MUNICIPALITY_ALIAS_MAPPING`: alternative names/spellings mapped to
canonical slugs (apostrophes written as `\x27`). -/
def MUNICIPALITY_ALIAS_MAPPING : List (String × String) :=
  [("\x27s-gravenhage", "den-haag"),
   ("s-gravenhage", "den-haag"),
   ("sgravenhage", "den-haag"),
   ("\x27s gravenhage", "den-haag"),
   ("s gravenhage", "den-haag"),
   ("the hague", "den-haag"),
   ("haag", "den-haag"),
   ("\x27s-hertogenbosch", "s-hertogenbosch"),
   ("shertogenbosch", "s-hertogenbosch"),
   ("\x27s hertogenbosch", "s-hertogenbosch"),
   ("s hertogenbosch", "s-hertogenbosch"),
   ("den bosch", "s-hertogenbosch"),
   ("den-bosch", "s-hertogenbosch"),
   ("denbosch", "s-hertogenbosch"),
   ("bosch", "s-hertogenbosch"),
   ("bergen (nh)", "bergen-(nh.)"),
   ("bergen nh", "bergen-(nh.)"),
   ("bergen noord-holland", "bergen-(nh.)"),
   ("bergen noord holland", "bergen-(nh.)"),
   ("bergen (noord-holland)", "bergen-(nh.)"),
   ("bergen n.h.", "bergen-(nh.)"),
   ("bergen n-h", "bergen-(nh.)"),
   ("bergen (l)", "bergen-(l.)"),
   ("bergen l", "bergen-(l.)"),
   ("bergen limburg", "bergen-(l.)"),
   ("bergen (limburg)", "bergen-(l.)"),
   ("bergen l.", "bergen-(l.)"),
   ("hengelo (o)", "hengelo"),
   ("hengelo o", "hengelo"),
   ("hengelo (overijssel)", "hengelo"),
   ("hengelo overijssel", "hengelo"),
   ("hengelo o.", "hengelo"),
   ("hengelo (gld)", "hengelo"),
   ("hengelo gld", "hengelo"),
   ("hengelo (gelderland)", "hengelo"),
   ("hengelo gelderland", "hengelo"),
   ("beek (l)", "beek"),
   ("beek l", "beek"),
   ("beek (limburg)", "beek"),
   ("beek limburg", "beek"),
   ("beek l.", "beek"),
   ("laren (nh)", "laren"),
   ("laren nh", "laren"),
   ("laren (noord-holland)", "laren"),
   ("laren noord-holland", "laren"),
   ("laren noord holland", "laren"),
   ("laren n.h.", "laren"),
   ("middelburg (z)", "middelburg"),
   ("middelburg z", "middelburg"),
   ("middelburg (zeeland)", "middelburg"),
   ("middelburg zeeland", "middelburg"),
   ("middelburg z.", "middelburg"),
   ("rijswijk (zh)", "rijswijk"),
   ("rijswijk zh", "rijswijk"),
   ("rijswijk (zuid-holland)", "rijswijk"),
   ("rijswijk zuid-holland", "rijswijk"),
   ("rijswijk zuid holland", "rijswijk"),
   ("rijswijk z.h.", "rijswijk"),
   ("stein (l)", "stein"),
   ("stein l", "stein"),
   ("stein (limburg)", "stein"),
   ("stein limburg", "stein"),
   ("stein l.", "stein"),
   ("groningen (gemeente)", "groningen"),
   ("utrecht (gemeente)", "utrecht"),
   ("valkenburg (zh)", "valkenburg-aan-de-geul"),
   ("valkenburg (l)", "valkenburg-aan-de-geul"),
   ("valkenburg", "valkenburg-aan-de-geul"),
   ("nuenen gerwen en nederwetten", "nuenen"),
   ("nuenen, gerwen en nederwetten", "nuenen")]

/-- Alias-table lookup of a normalized identifier. -/
def lookupAlias (s : String) : Option String :=
  (MUNICIPALITY_ALIAS_MAPPING.find? (fun p => p.1 == s)).map (fun p => p.2)

/-- `normalizeIdentifier`: `identifier.toLowerCase().trim()`. -/
def normalizeIdentifier (identifier : String) : String := jsTrim (jsToLower identifier)

/-- The CBS-code stage: the stored code, trimmed then lowercased, equals the
normalized identifier. -/
def codeMatches (normalized : String) (m : Municipality) : Bool :=
  match m.code with
  | none => false
  | some c => jsToLower (jsTrim c) == normalized

/-- Characters removed by the fuzzy regex `[\x27\x27\-\s().]` in the route
(the apostrophe appears twice in the source's character class). -/
def isFuzzyStripped (c : Char) : Bool :=
  c = '\x27' || c = '-' || c.isWhitespace || c = '(' || c = ')' || c = '.'

/-- `replace(/[\x27\x27\-\s().]/g, "")`: delete the stripped characters. -/
def fuzzyStrip (s : String) : String := ⟨s.data.filter (fun c => !(isFuzzyStripped c))⟩

/-- The fuzzy stage: name (lowercased) or slug, with special characters and
spaces removed, equals the identifier treated the same way. -/
def fuzzyMatches (normalized : String) (m : Municipality) : Bool :=
  let fuzzyNormalized := fuzzyStrip normalized
  fuzzyStrip (jsToLower m.name) == fuzzyNormalized || fuzzyStrip m.slug == fuzzyNormalized

/-- `findMunicipalityByIdentifier`: the sequential matching cascade — exact
slug, alias mapping, CBS code, case-insensitive name, fuzzy. -/
def findMunicipalityByIdentifier (municipalities : List Municipality)
    (identifier : String) : Option Municipality :=
  let normalized := normalizeIdentifier identifier
  match municipalities.find? (fun (m : Municipality) => m.slug == normalized) with
  | some m => some m
  | none =>
    match (match lookupAlias normalized with
           | some aliasSlug =>
             municipalities.find? (fun (m : Municipality) => m.slug == aliasSlug)
           | none => none) with
    | some m => some m
    | none =>
      match municipalities.find? (codeMatches normalized) with
      | some m => some m
      | none =>
        match municipalities.find?
            (fun (m : Municipality) => normalizeIdentifier m.name == normalized) with
        | some m => some m
        | none => municipalities.find? (fuzzyMatches normalized)

/-- The possible responses of the municipality GET handler, by source
branch. -/
inductive ApiResponse
  | rateLimited
  | missingIdentifier
  | municipalitiesFileMissing
  | notFound (identifier : String)
  | invalidNederland
  | dataFileMissing (name : String)
  | ok (m : Municipality)
deriving DecidableEq

/-- The HTTP status code of each response branch. -/
def httpStatus : ApiResponse → ℕ
  | ApiResponse.rateLimited => 429
  | ApiResponse.missingIdentifier => 400
  | ApiResponse.municipalitiesFileMissing => 500
  | ApiResponse.notFound _ => 404
  | ApiResponse.invalidNederland => 400
  | ApiResponse.dataFileMissing _ => 404
  | ApiResponse.ok _ => 200

/-- The GET handler of the municipality route, as a pure decision function:
rate limit, identifier presence, metadata file, lookup, the `nederland`
carve-out, data-file presence, then success. -/
def GET (now : ℕ) (rateRecord : Option RateRecord) (identifier : String)
    (metaFileExists : Bool) (municipalities : List Municipality)
    (dataFileExists : String → Bool) : ApiResponse × RateRecord :=
  let step := checkRateLimit now rateRecord
  if !step.1 then (ApiResponse.rateLimited, step.2)
  else if identifier == "" then (ApiResponse.missingIdentifier, step.2)
  else if !metaFileExists then (ApiResponse.municipalitiesFileMissing, step.2)
  else
    match findMunicipalityByIdentifier municipalities identifier with
    | none => (ApiResponse.notFound identifier, step.2)
    | some m =>
      if m.slug == "nederland" then (ApiResponse.invalidNederland, step.2)
      else if !dataFileExists m.slug then (ApiResponse.dataFileMissing m.name, step.2)
      else (ApiResponse.ok m, step.2)

end MunicipalityApi

namespace MunicipalityApi

/-- The alias step of the cascade as a single predicate on municipalities. -/
def aliasStage (n : String) (m : Municipality) : Bool :=
  match lookupAlias n with
  | some aliasSlug => m.slug == aliasSlug
  | none => false

/-- All five matching stages of the cascade, in source order. -/
def stageList (n : String) : List (Municipality → Bool) :=
  [fun m => m.slug == n, aliasStage n, codeMatches n,
   fun m => normalizeIdentifier m.name == n, fuzzyMatches n]

/-- A municipality matches the identifier by slug, alias, code, name, or
fuzzy normalization. -/
def anyStageMatches (n : String) (m : Municipality) : Bool :=
  (m.slug == n) || aliasStage n m || codeMatches n m
    || (normalizeIdentifier m.name == n) || fuzzyMatches n m

/-- A municipality matches the identifier in the claim's sense: the
identifier equals, case-insensitively and after trimming, its slug, its
name, or its CBS code. -/
def claimMatches (identifier : String) (m : Municipality) : Bool :=
  let n := normalizeIdentifier identifier
  (n == jsToLower m.slug) || (n == jsToLower m.name) || codeMatches n m

/-- First match over an ordered list of predicates. -/
def chainFind (ms : List Municipality) : List (Municipality → Bool) → Option Municipality
  | [] => none
  | p :: ps =>
    match ms.find? p with
    | some m => some m
    | none => chainFind ms ps

lemma alias_find_eq (ms : List Municipality) (n : String) :
    (match lookupAlias n with
     | some aliasSlug => ms.find? (fun (m : Municipality) => m.slug == aliasSlug)
     | none => none) = ms.find? (aliasStage n) := by
  cases h : lookupAlias n with
  | none =>
    symm
    rw [List.find?_eq_none]
    intro x hx
    simp [aliasStage, h]
  | some s =>
    have heq : (fun (m : Municipality) => m.slug == s) = aliasStage n := by
      funext m
      simp [aliasStage, h]
    show ms.find? (fun (m : Municipality) => m.slug == s) = ms.find? (aliasStage n)
    exact congrArg (fun p => List.find? p ms) heq

lemma find_eq_chainFind (ms : List Municipality) (identifier : String) :
    findMunicipalityByIdentifier ms identifier =
      chainFind ms (stageList (normalizeIdentifier identifier)) := by
  simp only [findMunicipalityByIdentifier]
  rw [alias_find_eq]
  simp only [chainFind, stageList]
  cases ms.find? (fun m => m.slug == normalizeIdentifier identifier) <;>
    cases ms.find? (aliasStage (normalizeIdentifier identifier)) <;>
      cases ms.find? (codeMatches (normalizeIdentifier identifier)) <;>
        cases ms.find? (fun m => normalizeIdentifier m.name == normalizeIdentifier identifier) <;>
          cases ms.find? (fuzzyMatches (normalizeIdentifier identifier)) <;> rfl

lemma chainFind_some {ms : List Municipality} {preds : List (Municipality → Bool)}
    {x : Municipality} (h : chainFind ms preds = some x) :
    x ∈ ms ∧ ∃ p ∈ preds, p x = true := by
  induction preds with
  | nil => simp [chainFind] at h
  | cons p ps ih =>
    rw [chainFind] at h
    cases hf : ms.find? p with
    | some y =>
      rw [hf] at h
      simp only [Option.some.injEq] at h
      subst h
      exact ⟨List.mem_of_find?_eq_some hf, p, by simp, List.find?_some hf⟩
    | none =>
      rw [hf] at h
      obtain ⟨hx, q, hq, hqx⟩ := ih h
      exact ⟨hx, q, by simp [hq], hqx⟩

lemma chainFind_eq_none_iff {ms : List Municipality} {preds : List (Municipality → Bool)} :
    chainFind ms preds = none ↔ ∀ p ∈ preds, ∀ m ∈ ms, p m = false := by
  induction preds with
  | nil => simp [chainFind]
  | cons p ps ih =>
    rw [chainFind]
    cases hf : ms.find? p with
    | some y =>
      simp only [reduceCtorEq, false_iff]
      intro hall
      have := hall p (by simp) y (List.mem_of_find?_eq_some hf)
      rw [List.find?_some hf] at this
      exact Bool.true_eq_false.mp this
    | none =>
      rw [ih]
      constructor
      · intro hall q hq m hm
        rcases List.mem_cons.mp hq with rfl | hq2
        · have := List.find?_eq_none.mp hf m hm
          exact Bool.not_eq_true _ |>.mp this
        · exact hall q hq2 m hm
      · intro hall q hq m hm
        exact hall q (by simp [hq]) m hm

lemma anyStage_iff_exists (n : String) (x : Municipality) :
    anyStageMatches n x = true ↔ ∃ p ∈ stageList n, p x = true := by
  simp only [anyStageMatches, stageList, List.mem_cons, List.not_mem_nil, or_false,
    Bool.or_eq_true, exists_eq_or_imp, exists_eq_left]
  tauto

end MunicipalityApi

namespace MunicipalityApi

/-- A claim-sense match implies a cascade-stage match, for hygienic
municipality rows (slug lowercase and trimmed; lowercased name trimmed). -/
lemma claimMatches_imp_anyStage {identifier : String} {m : Municipality}
    (hslugLower : jsToLower m.slug = m.slug)
    (hnameTrim : jsTrim (jsToLower m.name) = jsToLower m.name)
    (hclaim : claimMatches identifier m = true) :
    anyStageMatches (normalizeIdentifier identifier) m = true := by
  simp only [claimMatches, Bool.or_eq_true, beq_iff_eq] at hclaim
  simp only [anyStageMatches, Bool.or_eq_true, beq_iff_eq]
  rcases hclaim with (h | h) | h
  · exact Or.inl (Or.inl (Or.inl (Or.inl (by rw [← hslugLower, h]))))
  · refine Or.inl (Or.inr ?_)
    rw [normalizeIdentifier, hnameTrim, h]
  · exact Or.inl (Or.inl (Or.inr h))

/-- The cascade finds some municipality whenever some row matches some
stage. -/
lemma chainFind_isSome_of_match {ms : List Municipality} {identifier : String}
    {m : Municipality} (hmem : m ∈ ms)
    (hstage : anyStageMatches (normalizeIdentifier identifier) m = true) :
    findMunicipalityByIdentifier ms identifier ≠ none := by
  rw [find_eq_chainFind]
  intro hnone
  obtain ⟨p, hp, hpx⟩ := (anyStage_iff_exists _ m).mp hstage
  have := chainFind_eq_none_iff.mp hnone p hp m hmem
  rw [hpx] at this
  exact Bool.true_eq_false.mp this

/-- C5 as amended: an identifier that (case-insensitively, after trimming)
equals the slug, name, or CBS code of a hygienically-stored municipality —
and matches no other row of the cascade — is resolved to that municipality,
and the endpoint serves its data provided the rate limit passes, the
municipality is not the national pseudo-entry `nederland`, and its data file
exists; an identifier matching no row by slug, alias, code, name, or fuzzy
normalization yields HTTP 404. -/
theorem c5_municipality_endpoint_amended
    (ms : List Municipality) (identifier : String) (m : Municipality)
    (now : ℕ) (record : Option RateRecord) (dataFileExists : String → Bool)
    (hhyg : ∀ x ∈ ms, jsToLower x.slug = x.slug
        ∧ jsTrim (jsToLower x.name) = jsToLower x.name)
    (hmem : m ∈ ms)
    (hclaim : claimMatches identifier m = true)
    (huniq : ∀ x ∈ ms, anyStageMatches (normalizeIdentifier identifier) x = true → x = m)
    (hned : m.slug ≠ "nederland")
    (hrate : (checkRateLimit now record).1 = true)
    (hid : identifier ≠ "")
    (hfile : dataFileExists m.slug = true) :
    findMunicipalityByIdentifier ms identifier = some m
    ∧ (GET now record identifier true ms dataFileExists).1 = ApiResponse.ok m
    ∧ (∀ (ms' : List Municipality) (id' : String) (now' : ℕ)
          (record' : Option RateRecord) (dfe : String → Bool),
        (∀ x ∈ ms', anyStageMatches (normalizeIdentifier id') x = false) →
        (checkRateLimit now' record').1 = true → id' ≠ "" →
          findMunicipalityByIdentifier ms' id' = none
          ∧ (GET now' record' id' true ms' dfe).1 = ApiResponse.notFound id'
          ∧ httpStatus (GET now' record' id' true ms' dfe).1 = 404) := by
  have hfind : findMunicipalityByIdentifier ms identifier = some m := by
    obtain ⟨hsl, hnt⟩ := hhyg m hmem
    have hstage := claimMatches_imp_anyStage hsl hnt hclaim
    have hne := chainFind_isSome_of_match hmem hstage
    cases hres : findMunicipalityByIdentifier ms identifier with
    | none => exact absurd hres hne
    | some y =>
      have hy : y ∈ ms ∧ ∃ p ∈ stageList (normalizeIdentifier identifier), p y = true := by
        rw [find_eq_chainFind] at hres
        exact chainFind_some hres
      obtain ⟨hymem, hp⟩ := hy
      have : anyStageMatches (normalizeIdentifier identifier) y = true :=
        (anyStage_iff_exists _ y).mpr hp
      rw [huniq y hymem this]
  refine ⟨hfind, ?_, ?_⟩
  · have hid' : (identifier == "") = false := beq_eq_false_iff_ne.mpr hid
    have hned' : (m.slug == "nederland") = false := beq_eq_false_iff_ne.mpr hned
    simp only [GET, hrate, hid', hfind, hned', hfile, Bool.not_true, Bool.not_false,
      Bool.false_eq_true, if_false, if_true]
  · intro ms' id' now' record' dfe hnomatch hrate' hid'
    have hnone : findMunicipalityByIdentifier ms' id' = none := by
      rw [find_eq_chainFind, chainFind_eq_none_iff]
      intro p hp x hx
      have := hnomatch x hx
      rcases Bool.eq_false_iff.mp this with hne2
      by_contra hcontra
      have hptrue : p x = true := Bool.not_eq_false _ |>.mp hcontra
      exact hne2 ((anyStage_iff_exists _ x).mpr ⟨p, hp, hptrue⟩)
    have hid2 : (id' == "") = false := beq_eq_false_iff_ne.mpr hid'
    refine ⟨hnone, ?_, ?_⟩ <;>
      simp only [GET, hrate', hid2, hnone, Bool.not_true, Bool.false_eq_true,
        if_false, if_true, httpStatus]

end MunicipalityApi

namespace MunicipalityApi

/-- The national pseudo-entry served in `municipalities.json` (handled
explicitly by the route's `nederland` carve-out). -/
def nederlandEntry : Municipality :=
  ⟨"Nederland (totaal)", "nederland", "", 17000000, none⟩

/-- A concrete ordinary municipality row. -/
def amsterdamEntry : Municipality :=
  ⟨"Amsterdam", "amsterdam", "Noord-Holland", 882633, some "GM0363"⟩

/-- C5 counterexample: the identifier `nederland` equals the slug of a known
municipality row, yet the endpoint answers HTTP 400 (invalid municipality),
not that row's data. -/
theorem c5_municipality_endpoint_counterexample :
    claimMatches "nederland" nederlandEntry = true
    ∧ nederlandEntry ∈ [nederlandEntry, amsterdamEntry]
    ∧ (GET 0 none "nederland" true [nederlandEntry, amsterdamEntry]
        (fun _ => true)).1 = ApiResponse.invalidNederland
    ∧ httpStatus (GET 0 none "nederland" true [nederlandEntry, amsterdamEntry]
        (fun _ => true)).1 = 400 := by
  refine ⟨by decide, by decide, by decide, by decide⟩

/-- Witness for the amended C5: the identifier `Amsterdam` resolves to and
serves the Amsterdam row. -/
theorem c5_municipality_endpoint_amended_witness :
    findMunicipalityByIdentifier [amsterdamEntry] "Amsterdam" = some amsterdamEntry
    ∧ (GET 0 none "Amsterdam" true [amsterdamEntry] (fun _ => true)).1
        = ApiResponse.ok amsterdamEntry :=
  ⟨(c5_municipality_endpoint_amended [amsterdamEntry] "Amsterdam" amsterdamEntry 0 none
      (fun _ => true) (by decide) (by decide) (by decide) (by decide) (by decide)
      (by decide) (by decide) (by decide)).1,
   (c5_municipality_endpoint_amended [amsterdamEntry] "Amsterdam" amsterdamEntry 0 none
      (fun _ => true) (by decide) (by decide) (by decide) (by decide) (by decide)
      (by decide) (by decide) (by decide)).2.1⟩

lemma checkRateLimit_denied {now : ℕ} {r : RateRecord}
    (h1 : ¬ r.resetTime < now) (h2 : RATE_LIMIT ≤ r.count) :
    checkRateLimit now (some r) = (false, r) := by
  simp [checkRateLimit, h1, h2]

lemma checkRateLimit_accept {now : ℕ} {r : RateRecord}
    (h1 : ¬ r.resetTime < now) (h2 : r.count < RATE_LIMIT) :
    checkRateLimit now (some r) = (true, ⟨r.count + 1, r.resetTime⟩) := by
  simp [checkRateLimit, h1, not_le.mpr h2]

lemma checkRateLimit_fresh {now : ℕ} {r : RateRecord} (h1 : r.resetTime < now) :
    checkRateLimit now (some r) = (true, ⟨1, now + RATE_LIMIT_WINDOW⟩) := by
  simp [checkRateLimit, h1]

lemma processRequests_cons (record : Option RateRecord) (t : ℕ) (rest : List ℕ) :
    processRequests record (t :: rest) =
      (checkRateLimit t record).1 :: processRequests (some (checkRateLimit t record).2) rest :=
  rfl

/-- Requests that stay inside a record's window accept at most the remaining
budget `RATE_LIMIT - count`. -/
lemma processRequests_window_bound (ts : List ℕ) :
    ∀ r : RateRecord, (∀ t ∈ ts, t ≤ r.resetTime) →
      (processRequests (some r) ts).count true ≤ RATE_LIMIT - r.count := by
  induction ts with
  | nil => intro r _; simp [processRequests]
  | cons t rest ih =>
    intro r hts
    have hnot : ¬ r.resetTime < t := not_lt.mpr (hts t (by simp))
    by_cases hc : RATE_LIMIT ≤ r.count
    · rw [processRequests_cons, checkRateLimit_denied hnot hc]
      have hrest := ih r (fun t' ht' => hts t' (by simp [ht']))
      simpa [List.count_cons] using hrest
    · push_neg at hc
      rw [processRequests_cons, checkRateLimit_accept hnot hc]
      have hrest := ih ⟨r.count + 1, r.resetTime⟩ (fun t' ht' => hts t' (by simp [ht']))
      dsimp only at hrest ⊢
      rw [List.count_cons_self]
      omega

/-- C6: for one IP, at most `RATE_LIMIT` requests are accepted within one
window (record creation until `resetTime`); a request arriving while the
window's budget is exhausted is denied with HTTP 429 and leaves the record
unchanged; the first request strictly after `resetTime` is accepted and
starts a fresh window. -/
theorem c6_rate_limit
    :
    (∀ (t0 : ℕ) (ts : List ℕ), (∀ t ∈ ts, t ≤ t0 + RATE_LIMIT_WINDOW) →
      (processRequests none (t0 :: ts)).count true ≤ RATE_LIMIT)
    ∧ (∀ (r : RateRecord) (now : ℕ) (identifier : String) (metaOk : Bool)
          (ms : List Municipality) (dfe : String → Bool),
        now ≤ r.resetTime → RATE_LIMIT ≤ r.count →
          checkRateLimit now (some r) = (false, r)
          ∧ (GET now (some r) identifier metaOk ms dfe).1 = ApiResponse.rateLimited
          ∧ httpStatus (GET now (some r) identifier metaOk ms dfe).1 = 429)
    ∧ (∀ (r : RateRecord) (now : ℕ), r.resetTime < now →
        checkRateLimit now (some r) = (true, ⟨1, now + RATE_LIMIT_WINDOW⟩)) := by
  refine ⟨?_, ?_, ?_⟩
  · intro t0 ts hts
    rw [processRequests_cons]
    have hfirst : checkRateLimit t0 none = (true, ⟨1, t0 + RATE_LIMIT_WINDOW⟩) := rfl
    rw [hfirst]
    have hrest := processRequests_window_bound ts ⟨1, t0 + RATE_LIMIT_WINDOW⟩ (by
      intro t ht
      exact hts t ht)
    dsimp only at hrest ⊢
    rw [List.count_cons_self]
    have hlim : (1 : ℕ) ≤ RATE_LIMIT := by norm_num [RATE_LIMIT]
    omega
  · intro r now identifier metaOk ms dfe hwin hcount
    have hdenied := checkRateLimit_denied (not_lt.mpr hwin) hcount
    refine ⟨hdenied, ?_, ?_⟩ <;>
      simp only [GET, hdenied, Bool.not_false, if_true, httpStatus]
  · intro r now hfresh
    exact checkRateLimit_fresh hfresh

/-- Witness for C6: a concrete burst inside one window stays within the
budget; a 16th-style request on an exhausted record is denied with 429; a
request after the reset time opens a fresh window. -/
theorem c6_rate_limit_witness :
    (processRequests none [0, 1, 2]).count true ≤ RATE_LIMIT
    ∧ checkRateLimit 50 (some ⟨15, 100⟩) = (false, ⟨15, 100⟩)
    ∧ (GET 50 (some ⟨15, 100⟩) "amsterdam" true [] (fun _ => false)).1
        = ApiResponse.rateLimited
    ∧ checkRateLimit 101 (some ⟨15, 100⟩) = (true, ⟨1, 101 + RATE_LIMIT_WINDOW⟩) :=
  ⟨c6_rate_limit.1 0 [1, 2] (by decide),
   (c6_rate_limit.2.1 ⟨15, 100⟩ 50 "amsterdam" true [] (fun _ => false)
      (by decide) (by decide)).1,
   (c6_rate_limit.2.1 ⟨15, 100⟩ 50 "amsterdam" true [] (fun _ => false)
      (by decide) (by decide)).2.1,
   c6_rate_limit.2.2 ⟨15, 100⟩ 101 (by decide)⟩

end MunicipalityApi

namespace DownloadApi

/-! ## Data-download endpoint (download route with CSV/JSON export) -/

/-- `RATE_LIMIT = 5` downloads per hour. -/
def RATE_LIMIT : ℕ := 5

/-- `RATE_LIMIT_WINDOW = 60 * 60 * 1000` milliseconds. -/
def RATE_LIMIT_WINDOW : ℕ := 60 * 60 * 1000

/-- One IP's entry in the download route's `rateLimitStore`. -/
structure RateRecord where
  count : ℕ
  resetTime : ℕ
deriving DecidableEq

/-- The download route's `checkRateLimit` (same logic as the municipality
route, with the download limit). -/
def checkRateLimit (now : ℕ) (record : Option RateRecord) : Bool × RateRecord :=
  match record with
  | none => (true, ⟨1, now + RATE_LIMIT_WINDOW⟩)
  | some r =>
    if r.resetTime < now then (true, ⟨1, now + RATE_LIMIT_WINDOW⟩)
    else if RATE_LIMIT ≤ r.count then (false, r)
    else (true, ⟨r.count + 1, r.resetTime⟩)

/-- A character allowed by the slug-validation regex `^[a-z0-9-]+$`. -/
def isSlugChar (c : Char) : Bool :=
  ('a' ≤ c && c ≤ 'z') || ('0' ≤ c && c ≤ '9') || c == '-'

/-- `slug.match(/^[a-z0-9-]+$/)`: nonempty and made only of lowercase
letters, digits and hyphens. -/
def slugMatchesPattern (s : String) : Bool :=
  !s.data.isEmpty && s.data.all isSlugChar

/-- The filesystem path the route reads:
`path.join(process.cwd(), 'public', 'data', slug + '.geojson')`. -/
def dataFilePath (slug : String) : String := "public/data/" ++ slug ++ ".geojson"

/-- The download route's response branches. -/
inductive DownloadResponse
  | rateLimited
  | missingParams
  | invalidFormat
  | invalidSlug
  | notFound
  | okJson (path : String)
  | okCsv (path : String)
deriving DecidableEq

/-- HTTP status of each download response branch. -/
def dlHttpStatus : DownloadResponse → ℕ
  | DownloadResponse.rateLimited => 429
  | DownloadResponse.missingParams => 400
  | DownloadResponse.invalidFormat => 400
  | DownloadResponse.invalidSlug => 400
  | DownloadResponse.notFound => 404
  | DownloadResponse.okJson _ => 200
  | DownloadResponse.okCsv _ => 200

/-- The file a response caused to be read, if any. -/
def fileRead : DownloadResponse → Option String
  | DownloadResponse.okJson p => some p
  | DownloadResponse.okCsv p => some p
  | _ => none

/-- The GET handler of the download route as a pure decision function: rate
limit, parameter presence (JavaScript falsiness: absent or empty), format
whitelist, slug validation, file existence, then the export. -/
def GET (now : ℕ) (record : Option RateRecord) (slug format : Option String)
    (fileExists : String → Bool) : DownloadResponse × RateRecord :=
  let step := checkRateLimit now record
  if !step.1 then (DownloadResponse.rateLimited, step.2)
  else
    match slug, format with
    | none, _ => (DownloadResponse.missingParams, step.2)
    | some _, none => (DownloadResponse.missingParams, step.2)
    | some s, some f =>
      if s == "" || f == "" then (DownloadResponse.missingParams, step.2)
      else if f != "json" && f != "csv" then (DownloadResponse.invalidFormat, step.2)
      else if !slugMatchesPattern s then (DownloadResponse.invalidSlug, step.2)
      else if !fileExists (dataFilePath s) then (DownloadResponse.notFound, step.2)
      else if f == "json" then (DownloadResponse.okJson (dataFilePath s), step.2)
      else (DownloadResponse.okCsv (dataFilePath s), step.2)

end DownloadApi

namespace DownloadApi

/-- C8 as amended: provided the rate limit is not already exhausted (an
exhausted IP gets HTTP 429, likewise without touching the filesystem), a
request whose slug contains any character outside lowercase letters, digits
and hyphens receives HTTP 400 and causes no file read; and in all cases
whatsoever, a file is read only at `public/data/<slug>.geojson` for a slug
matching `[a-z0-9-]+`. -/
theorem c8_download_slug_validation
    (now : ℕ) (record : Option RateRecord) (s f : String) (fileExists : String → Bool)
    (hrate : (checkRateLimit now record).1 = true)
    (hbad : ∃ c ∈ s.data, isSlugChar c = false) :
    dlHttpStatus (GET now record (some s) (some f) fileExists).1 = 400
    ∧ fileRead (GET now record (some s) (some f) fileExists).1 = none
    ∧ (∀ (now' : ℕ) (rec' : Option RateRecord) (slug' fmt' : Option String)
          (fe : String → Bool) (p : String),
        fileRead (GET now' rec' slug' fmt' fe).1 = some p →
          ∃ s', slugMatchesPattern s' = true ∧ slug' = some s' ∧ p = dataFilePath s') := by
  have hsne : (s == "") = false := by
    rw [beq_eq_false_iff_ne]
    intro he
    obtain ⟨c, hc, _⟩ := hbad
    rw [he] at hc
    simp at hc
  have hpat : slugMatchesPattern s = false := by
    obtain ⟨c, hc, hcf⟩ := hbad
    have hall : s.data.all isSlugChar = false :=
      List.all_eq_false.mpr ⟨c, hc, by simp [hcf]⟩
    rw [slugMatchesPattern, hall, Bool.and_false]
  have hmain : dlHttpStatus (GET now record (some s) (some f) fileExists).1 = 400
      ∧ fileRead (GET now record (some s) (some f) fileExists).1 = none := by
    by_cases hf0 : (f == "") = true
    · constructor <;> simp [GET, hrate, hsne, hf0, dlHttpStatus, fileRead]
    · have hf0' : (f == "") = false := by simpa using hf0
      by_cases hfmt : (f != "json" && f != "csv") = true
      · constructor <;> simp [GET, hrate, hsne, hf0', hfmt, dlHttpStatus, fileRead]
      · have hfmt' : (f != "json" && f != "csv") = false := by simpa using hfmt
        constructor <;>
          simp [GET, hrate, hsne, hf0', hfmt', hpat, dlHttpStatus, fileRead]
  refine ⟨hmain.1, hmain.2, ?_⟩
  intro now' rec' slug' fmt' fe p h
  simp only [GET] at h
  split at h
  · simp [fileRead] at h
  · split at h
    · simp [fileRead] at h
    · simp [fileRead] at h
    · rename_i s' f'
      split at h
      · simp [fileRead] at h
      · split at h
        · simp [fileRead] at h
        · split at h
          · simp [fileRead] at h
          · rename_i hslugOk
            have hok : slugMatchesPattern s' = true := by
              revert hslugOk
              cases slugMatchesPattern s' <;> simp
            split at h
            · simp [fileRead] at h
            · split at h
              · simp only [fileRead, Option.some.injEq] at h
                exact ⟨s', hok, rfl, h.symm⟩
              · simp only [fileRead, Option.some.injEq] at h
                exact ⟨s', hok, rfl, h.symm⟩

/-- C8 counterexample: a traversal-style slug arriving while the IP's
download budget is exhausted is answered with HTTP 429, not 400 (though
still without any filesystem access). -/
theorem c8_download_counterexample :
    (∃ c ∈ ("../secret").data, isSlugChar c = false)
    ∧ (GET 50 (some ⟨5, 100⟩) (some "../secret") (some "json") (fun _ => true)).1
        = DownloadResponse.rateLimited
    ∧ dlHttpStatus (GET 50 (some ⟨5, 100⟩) (some "../secret") (some "json")
        (fun _ => true)).1 = 429 := by
  refine ⟨⟨'.', by decide, by decide⟩, by decide, by decide⟩

/-- Witness for the amended C8: a fresh-window request with a traversal
slug gets HTTP 400 and reads nothing. -/
theorem c8_download_slug_validation_witness :
    dlHttpStatus (GET 0 none (some "../secret") (some "json") (fun _ => true)).1 = 400
    ∧ fileRead (GET 0 none (some "../secret") (some "json") (fun _ => true)).1 = none :=
  ⟨(c8_download_slug_validation 0 none "../secret" "json" (fun _ => true) (by decide)
      ⟨'.', by decide, by decide⟩).1,
   (c8_download_slug_validation 0 none "../secret" "json" (fun _ => true) (by decide)
      ⟨'.', by decide, by decide⟩).2.1⟩

end DownloadApi

namespace BoundaryLoader

/-! ## Provincial boundary loader (boundaryLoader utility) -/

/-- `ProvinceMetadata` from the boundary index. -/
structure ProvinceMetadata where
  name : String
  slug : String
  file : String
  size_mb : ℚ
  boundaries_count : ℕ
deriving DecidableEq

/-- The merged `BoundaryData` (features kept abstract, as the source types
them `any[]`). -/
structure BoundaryData (F : Type) where
  features : List F
  total_boundaries : ℕ
  provinces_loaded : ℕ
  provinces : List String

/-- `loadProvincialBoundaries`: fetch every province in the index; a failed
or non-OK fetch is caught and contributes an empty feature list; features
are concatenated and metadata is derived from the per-province outcomes
(`fetchResult p = none` models a rejected or non-OK fetch). -/
def loadProvincialBoundaries {F : Type} (provinces : List ProvinceMetadata)
    (fetchResult : ProvinceMetadata → Option (List F)) : BoundaryData F :=
  let provincialData := provinces.map (fun p => (p.name, (fetchResult p).getD []))
  let allFeatures := provincialData.flatMap (fun d => d.2)
  let loadedProvinces :=
    (provincialData.filter (fun d => decide (0 < d.2.length))).map (fun d => d.1)
  ⟨allFeatures, allFeatures.length, loadedProvinces.length, loadedProvinces⟩

/-- C10: the loader resolves to a merged collection in which
`total_boundaries` always equals the length of the features array, the
features are exactly the concatenation of every province's (possibly empty)
contribution, `provinces_loaded` counts the provinces that contributed at
least one feature, and a province whose fetch failed contributes nothing and
is omitted from `metadata.provinces` (province names assumed distinct). -/
theorem c10_boundary_loader {F : Type} (provinces : List ProvinceMetadata)
    (fetchResult : ProvinceMetadata → Option (List F))
    (hnames : (provinces.map ProvinceMetadata.name).Nodup) :
    (loadProvincialBoundaries provinces fetchResult).total_boundaries
        = (loadProvincialBoundaries provinces fetchResult).features.length
    ∧ (loadProvincialBoundaries provinces fetchResult).features
        = provinces.flatMap (fun p => (fetchResult p).getD [])
    ∧ (loadProvincialBoundaries provinces fetchResult).provinces_loaded
        = (provinces.filter (fun p => decide (0 < ((fetchResult p).getD []).length))).length
    ∧ (∀ p ∈ provinces, fetchResult p = none →
        p.name ∉ (loadProvincialBoundaries provinces fetchResult).provinces) := by
  refine ⟨rfl, ?_, ?_, ?_⟩
  · show (provinces.map (fun p => (p.name, (fetchResult p).getD []))).flatMap
        (fun d => d.2) = _
    rw [List.flatMap_map]
  · have h : (loadProvincialBoundaries provinces fetchResult).provinces_loaded
        = (((provinces.map (fun p => (p.name, (fetchResult p).getD []))).filter
            (fun d => decide (0 < d.2.length))).map (fun d => d.1)).length := rfl
    rw [h, List.filter_map, List.length_map, List.length_map]
    rfl
  · intro p hp hfail hmem
    show False
    have hmem2 : p.name ∈ ((provinces.map (fun p => (p.name, (fetchResult p).getD []))).filter
        (fun d => decide (0 < d.2.length))).map (fun d => d.1) := hmem
    rw [List.filter_map, List.map_map] at hmem2
    obtain ⟨q, hq, hqname⟩ := List.mem_map.mp hmem2
    have hqmem : q ∈ provinces := List.mem_of_mem_filter hq
    have hqpos := List.of_mem_filter hq
    have hqeq : q = p := List.inj_on_of_nodup_map hnames hqmem hp hqname
    subst hqeq
    rw [Function.comp] at hqpos
    simp only [hfail, Option.getD_none, List.length_nil] at hqpos
    exact absurd hqpos (by decide)

/-- Concrete provinces for the C10 witness. -/
def drentheProvince : ProvinceMetadata :=
  ⟨"Drenthe", "drenthe", "boundaries/drenthe.geojson", 5, 12⟩

/-- A second concrete province whose fetch will fail in the witness. -/
def frieslandProvince : ProvinceMetadata :=
  ⟨"Friesland", "friesland", "boundaries/friesland.geojson", 7, 18⟩

/-- The witness's fetch outcome: Drenthe yields two features, Friesland's
fetch fails. -/
def witnessFetch (p : ProvinceMetadata) : Option (List ℕ) :=
  if p.name == "Drenthe" then some [10, 11] else none

/-- Witness for C10 at a concrete pair of provinces with one failed fetch. -/
theorem c10_boundary_loader_witness :
    (loadProvincialBoundaries [drentheProvince, frieslandProvince] witnessFetch).total_boundaries
      = (loadProvincialBoundaries [drentheProvince, frieslandProvince] witnessFetch).features.length
    ∧ "Friesland" ∉
        (loadProvincialBoundaries [drentheProvince, frieslandProvince] witnessFetch).provinces :=
  ⟨(c10_boundary_loader [drentheProvince, frieslandProvince] witnessFetch (by decide)).1,
   (c10_boundary_loader [drentheProvince, frieslandProvince] witnessFetch (by decide)).2.2.2
     frieslandProvince (by decide) (by decide)⟩

end BoundaryLoader

/-! ## Marker spreading (webapp `Map` component, spiderfy effect) -/

/-- The `vervoerder` read off a feature's properties (the source casts
`feature.properties as PakketpuntProperties`; spreading is applied to
pakketpunt features only). -/
def vervoerderOf (f : PakketpuntFeature) : String :=
  match f.properties with
  | FeatureProperties.pakketpunt p => p.vervoerder
  | FeatureProperties.buffer _ => ""

/-- `feature.geometry.coordinates as [number, number]`: the `[lng, lat]`
pair of a point feature. -/
def coordsOf (f : PakketpuntFeature) : ℚ × ℚ :=
  match f.geometry with
  | Geometry.point lng lat => (lng, lat)
  | Geometry.polygon _ => (0, 0)
  | Geometry.multiPolygon _ => (0, 0)

/-- Rounding to 6 decimal places, as in `toFixed(6)`. -/
def round6 (q : ℚ) : ℤ := round (q * 1000000)

/-- The grouping key `coords[1].toFixed(6) + "," + coords[0].toFixed(6)`
(latitude first, then longitude, both rounded to 6 decimals). -/
def coordKey (f : PakketpuntFeature) : ℤ × ℤ :=
  (round6 (coordsOf f).2, round6 (coordsOf f).1)

/-- A marker with its spiderfy offset (`{ ...marker, offsetLat, offsetLng }`). -/
structure SpreadMarker where
  feature : PakketpuntFeature
  offsetLat : ℝ
  offsetLng : ℝ

/-- `radius = 0.00015` (≈ 15 m offset) used for the spiderfy circle. -/
noncomputable def SPREAD_RADIUS : ℝ := 0.00015

/-- First-occurrence-ordered distinct keys, as produced by insertion into a
JavaScript `Map`. -/
def firstKeys {α : Type} [BEq α] : List α → List α
  | [] => []
  | k :: rest => k :: firstKeys (rest.filter (fun x => x != k))
termination_by l => l.length
decreasing_by
  simp_wf
  exact Nat.lt_succ_of_le (List.length_filter_le _ _)

/-- One group's output: a single marker keeps zero offset; the members of a
larger group are spread on a circle, member `index` at angle
`2π·index/group.length`, `offsetLat = sin(angle)·radius`,
`offsetLng = cos(angle)·radius`. -/
noncomputable def groupSpread (group : List PakketpuntFeature) : List SpreadMarker :=
  if group.length = 1 then
    group.map (fun m => ⟨m, 0, 0⟩)
  else
    group.enum.map (fun im =>
      ⟨im.2, Real.sin ((2 * Real.pi * im.1) / group.length) * SPREAD_RADIUS,
        Real.cos ((2 * Real.pi * im.1) / group.length) * SPREAD_RADIUS⟩)

/-- `spreadOverlappingMarkers`: sort by provider priority (the hourly-seeded
priority is a parameter `prio`); below zoom 15 return the sorted points with
zero offsets; at zoom 15 and above, group by exact (6-decimal) coordinates
in first-occurrence order and spread each group. -/
noncomputable def spreadOverlappingMarkers (prio : String → ℤ)
    (points : List PakketpuntFeature) (currentZoom : ℕ) : List SpreadMarker :=
  let sortedPoints := points.mergeSort
    (fun a b => decide (prio (vervoerderOf a) ≤ prio (vervoerderOf b)))
  if currentZoom < 15 then
    sortedPoints.map (fun p => ⟨p, 0, 0⟩)
  else
    let keys := firstKeys (sortedPoints.map coordKey)
    keys.flatMap (fun k => groupSpread (sortedPoints.filter (fun p => coordKey p == k)))

lemma length_filter_partition {α : Type} (pred : α → Bool) (l : List α) :
    (l.filter pred).length + (l.filter (fun x => !pred x)).length = l.length := by
  induction l with
  | nil => simp
  | cons a rest ih =>
    cases h : pred a <;> simp [List.filter_cons, h] <;> omega

lemma firstKeys_subset {α : Type} [BEq α] :
    ∀ (m : List α), ∀ k ∈ firstKeys m, k ∈ m := by
  suffices H : ∀ (n : ℕ) (m : List α), m.length ≤ n → ∀ k ∈ firstKeys m, k ∈ m by
    intro m
    exact H m.length m le_rfl
  intro n
  induction n with
  | zero =>
    intro m hm k hk
    rw [Nat.le_zero, List.length_eq_zero] at hm
    subst hm
    simp [firstKeys] at hk
  | succ n ih =>
    intro m hm k hk
    match m with
    | [] => simp [firstKeys] at hk
    | a :: rest =>
      rw [show firstKeys (a :: rest) = a :: firstKeys (rest.filter (fun x => x != a))
          from by rw [firstKeys]] at hk
      rcases List.mem_cons.mp hk with rfl | hk2
      · exact List.mem_cons_self _ _
      · have hlen : (rest.filter (fun x => x != a)).length ≤ n := by
          have := List.length_filter_le (fun x => x != a) rest
          simp only [List.length_cons] at hm
          omega
        have := ih _ hlen k hk2
        exact List.mem_cons.mpr (Or.inr (List.mem_of_mem_filter this))

/-- The groups formed by first-occurrence keys partition the list: group
sizes sum to the list length. -/
lemma sum_group_sizes {P K : Type} [BEq K] [LawfulBEq K] (key : P → K) :
    ∀ (l : List P),
      ((firstKeys (l.map key)).map
        (fun k => (l.filter (fun p => key p == k)).length)).sum = l.length := by
  suffices H : ∀ (n : ℕ) (l : List P), l.length ≤ n →
      ((firstKeys (l.map key)).map
        (fun k => (l.filter (fun p => key p == k)).length)).sum = l.length by
    intro l
    exact H l.length l le_rfl
  intro n
  induction n with
  | zero =>
    intro l hl
    rw [Nat.le_zero, List.length_eq_zero] at hl
    subst hl
    simp [firstKeys]
  | succ n ih =>
    intro l hl
    match l with
    | [] => simp [firstKeys]
    | p :: rest =>
      have hfk : firstKeys ((p :: rest).map key)
          = key p :: firstKeys ((rest.map key).filter (fun x => x != key p)) := by
        rw [List.map_cons, firstKeys]
      have hcomm : (rest.map key).filter (fun x => x != key p)
          = (rest.filter (fun q => key q != key p)).map key := by
        rw [List.filter_map]
        rfl
      rw [hfk, hcomm, List.map_cons, List.sum_cons]
      have hhead : ((p :: rest).filter (fun q => key q == key p)).length
          = (rest.filter (fun q => key q == key p)).length + 1 := by
        rw [List.filter_cons_of_pos (by simp)]
        simp
      have htail : ∀ k ∈ firstKeys ((rest.filter (fun q => key q != key p)).map key),
          ((p :: rest).filter (fun q => key q == k)).length
            = ((rest.filter (fun q => key q != key p)).filter
                (fun q => key q == k)).length := by
        intro k hk
        have hkmem : k ∈ (rest.filter (fun q => key q != key p)).map key :=
          firstKeys_subset _ k hk
        obtain ⟨q, hq, rfl⟩ := List.mem_map.mp hkmem
        have hqne : (key q != key p) = true := (List.mem_filter.mp hq).2
        have hkne : key q ≠ key p := by simpa using hqne
        rw [List.filter_cons_of_neg (by simpa using fun h => hkne h.symm)]
        rw [List.filter_filter]
        refine congrArg List.length (List.filter_congr ?_)
        intro x hx
        cases hxk : key x == key q with
        | false => simp
        | true =>
          have : key x = key q := by simpa using hxk
          simp [this, hkne]
      have hmapeq : (firstKeys ((rest.filter (fun q => key q != key p)).map key)).map
            (fun k => ((p :: rest).filter (fun q => key q == k)).length)
          = (firstKeys ((rest.filter (fun q => key q != key p)).map key)).map
            (fun k => ((rest.filter (fun q => key q != key p)).filter
                (fun q => key q == k)).length) :=
        List.map_congr_left htail
      rw [hmapeq]
      have hlen2 : (rest.filter (fun q => key q != key p)).length ≤ n := by
        have := List.length_filter_le (fun q => key q != key p) rest
        simp only [List.length_cons] at hl
        omega
      rw [ih _ hlen2, hhead]
      have hpart := length_filter_partition (fun q => key q == key p) rest
      have : (rest.filter (fun q => !(key q == key p))).length
          = (rest.filter (fun q => key q != key p)).length := rfl
      simp only [List.length_cons]
      omega

lemma groupSpread_length (g : List PakketpuntFeature) :
    (groupSpread g).length = g.length := by
  rw [groupSpread]
  split_ifs with h
  · rw [List.length_map]
  · rw [List.length_map, List.enum_length]

lemma mem_groupSpread {g : List PakketpuntFeature} {s : SpreadMarker}
    (hs : s ∈ groupSpread g) :
    s.feature ∈ g ∧ (g.length = 1 → s.offsetLat = 0 ∧ s.offsetLng = 0) := by
  rw [groupSpread] at hs
  split_ifs at hs with h1
  · obtain ⟨m, hm, rfl⟩ := List.mem_map.mp hs
    exact ⟨hm, fun _ => ⟨rfl, rfl⟩⟩
  · obtain ⟨im, him, rfl⟩ := List.mem_map.mp hs
    obtain ⟨hi, heq⟩ := List.mem_enum him
    refine ⟨?_, fun hlen => absurd hlen h1⟩
    rw [heq]
    exact List.getElem_mem hi

/-- Distinct angle indices below the group size give distinct offset pairs. -/
lemma offset_pair_injective {n i j : ℕ} (hi : i < n) (hj : j < n)
    (hs : Real.sin ((2 * Real.pi * i) / n) = Real.sin ((2 * Real.pi * j) / n))
    (hc : Real.cos ((2 * Real.pi * i) / n) = Real.cos ((2 * Real.pi * j) / n)) :
    i = j := by
  have hn : 0 < n := Nat.pos_of_ne_zero (by omega)
  have hnR : (n : ℝ) ≠ 0 := Nat.cast_ne_zero.mpr hn.ne'
  have hangle := Real.Angle.cos_sin_inj hc hs
  rw [Real.Angle.angle_eq_iff_two_pi_dvd_sub] at hangle
  obtain ⟨k, hk⟩ := hangle
  have h2pi : (2 : ℝ) * Real.pi ≠ 0 := by
    simp [Real.pi_ne_zero]
  have hij : (i : ℝ) - j = k * n := by
    have hexp : (2 * Real.pi) * ((i : ℝ) - j) = (2 * Real.pi) * ((k : ℝ) * n) := by
      have hmul := congrArg (fun x => x * (n : ℝ)) hk
      field_simp at hmul
      ring_nf at hmul ⊢
      linarith [hmul]
    exact mul_left_cancel₀ h2pi hexp
  have hijZ : (i : ℤ) - j = k * n := by exact_mod_cast hij
  have hbound1 : -(n : ℤ) < (i : ℤ) - j := by omega
  have hbound2 : (i : ℤ) - j < n := by omega
  have hk0 : k = 0 := by
    rcases lt_trichotomy k 0 with hk1 | hk1 | hk1
    · have hkle : k ≤ -1 := by omega
      have : k * n ≤ -1 * n := mul_le_mul_of_nonneg_right hkle (by positivity)
      simp only [neg_one_mul] at this
      omega
    · exact hk1
    · have hkge : 1 ≤ k := by omega
      have : 1 * (n : ℤ) ≤ k * n := mul_le_mul_of_nonneg_right hkge (by positivity)
      simp only [one_mul] at this
      omega
  rw [hk0] at hijZ
  omega

lemma groupSpread_of_big {g : List PakketpuntFeature} (hg : 2 ≤ g.length) :
    groupSpread g = g.enum.map (fun im =>
      ⟨im.2, Real.sin ((2 * Real.pi * im.1) / g.length) * SPREAD_RADIUS,
        Real.cos ((2 * Real.pi * im.1) / g.length) * SPREAD_RADIUS⟩) := by
  rw [groupSpread, if_neg (by omega)]

lemma groupSpread_on_circle {g : List PakketpuntFeature} (hg : 2 ≤ g.length) :
    ∀ s ∈ groupSpread g, s.offsetLat ^ 2 + s.offsetLng ^ 2 = SPREAD_RADIUS ^ 2 := by
  intro s hs
  rw [groupSpread_of_big hg] at hs
  obtain ⟨im, him, rfl⟩ := List.mem_map.mp hs
  have htrig := Real.sin_sq_add_cos_sq ((2 * Real.pi * im.1) / g.length)
  dsimp only
  nlinarith [htrig]

lemma groupSpread_offsets_nodup {g : List PakketpuntFeature} (hg : 2 ≤ g.length) :
    ((groupSpread g).map (fun s => (s.offsetLat, s.offsetLng))).Nodup := by
  rw [groupSpread_of_big hg, List.map_map, List.nodup_iff_injective_get]
  rintro ⟨i, hi⟩ ⟨j, hj⟩ heq
  have hilen : i < g.length := by
    rw [List.length_map, List.enum_length] at hi
    exact hi
  have hjlen : j < g.length := by
    rw [List.length_map, List.enum_length] at hj
    exact hj
  simp only [List.get_eq_getElem, List.getElem_map, Function.comp, List.getElem_enum,
    Prod.mk.injEq] at heq
  obtain ⟨hlat, hlng⟩ := heq
  have hr : SPREAD_RADIUS ≠ 0 := by
    rw [SPREAD_RADIUS]
    norm_num
  have hsin := mul_right_cancel₀ hr hlat
  have hcos := mul_right_cancel₀ hr hlng
  exact Fin.ext (offset_pair_injective hilen hjlen hsin hcos)

lemma mem_spread_high {prio : String → ℤ} {points : List PakketpuntFeature}
    {currentZoom : ℕ} (hz : ¬ currentZoom < 15) {s : SpreadMarker}
    (hs : s ∈ spreadOverlappingMarkers prio points currentZoom) :
    s ∈ groupSpread ((points.mergeSort
        (fun a b => decide (prio (vervoerderOf a) ≤ prio (vervoerderOf b)))).filter
      (fun p => coordKey p == coordKey s.feature)) := by
  simp only [spreadOverlappingMarkers] at hs
  rw [if_neg hz] at hs
  obtain ⟨k, hk, hsk⟩ := List.mem_flatMap.mp hs
  have hfeat := (mem_groupSpread hsk).1
  have hkey : (coordKey s.feature == k) = true := (List.mem_filter.mp hfeat).2
  have : coordKey s.feature = k := by simpa using hkey
  rw [← this] at hsk
  exact hsk

/-- C9: marker spreading preserves the number of markers; below zoom 15 all
offsets are zero; at zoom 15 and above a marker gets a nonzero offset only
when at least two input features share 6-decimal-rounded coordinates, and a
marker whose rounded coordinates are unique keeps zero offset; the members
of a multi-member group are placed at evenly spaced angles `2πi/n` on the
circle of radius `SPREAD_RADIUS` with pairwise-distinct offsets. -/
theorem c9_spread_overlapping_markers (prio : String → ℤ)
    (points : List PakketpuntFeature) (currentZoom : ℕ) :
    (spreadOverlappingMarkers prio points currentZoom).length = points.length
    ∧ (currentZoom < 15 → ∀ s ∈ spreadOverlappingMarkers prio points currentZoom,
        s.offsetLat = 0 ∧ s.offsetLng = 0)
    ∧ (15 ≤ currentZoom → ∀ s ∈ spreadOverlappingMarkers prio points currentZoom,
        (s.offsetLat ≠ 0 ∨ s.offsetLng ≠ 0) →
          1 < (points.filter (fun p => coordKey p == coordKey s.feature)).length)
    ∧ (15 ≤ currentZoom → ∀ s ∈ spreadOverlappingMarkers prio points currentZoom,
        (points.filter (fun p => coordKey p == coordKey s.feature)).length = 1 →
          s.offsetLat = 0 ∧ s.offsetLng = 0)
    ∧ (∀ g : List PakketpuntFeature, 2 ≤ g.length →
        groupSpread g = g.enum.map (fun im =>
          ⟨im.2, Real.sin ((2 * Real.pi * im.1) / g.length) * SPREAD_RADIUS,
            Real.cos ((2 * Real.pi * im.1) / g.length) * SPREAD_RADIUS⟩)
        ∧ (∀ s ∈ groupSpread g, s.offsetLat ^ 2 + s.offsetLng ^ 2 = SPREAD_RADIUS ^ 2)
        ∧ ((groupSpread g).map (fun s => (s.offsetLat, s.offsetLng))).Nodup) := by
  have hperm := List.mergeSort_perm points
    (fun a b => decide (prio (vervoerderOf a) ≤ prio (vervoerderOf b)))
  have hfilterlen : ∀ q : PakketpuntFeature → Bool,
      ((points.mergeSort
          (fun a b => decide (prio (vervoerderOf a) ≤ prio (vervoerderOf b)))).filter
        q).length = (points.filter q).length :=
    fun q => (hperm.filter q).length_eq
  refine ⟨?_, ?_, ?_, ?_, ?_⟩
  · by_cases hz : currentZoom < 15
    · simp only [spreadOverlappingMarkers]
      rw [if_pos hz, List.length_map, List.length_mergeSort]
    · simp only [spreadOverlappingMarkers]
      rw [if_neg hz, List.length_flatMap]
      have hcongr : List.map (List.length ∘ fun k =>
            groupSpread ((points.mergeSort
              (fun a b => decide (prio (vervoerderOf a) ≤ prio (vervoerderOf b)))).filter
                (fun p => coordKey p == k)))
          (firstKeys ((points.mergeSort
              (fun a b => decide (prio (vervoerderOf a) ≤ prio (vervoerderOf b)))).map
            coordKey))
          = List.map (fun k =>
              (((points.mergeSort
                (fun a b => decide (prio (vervoerderOf a) ≤ prio (vervoerderOf b)))).filter
                  (fun p => coordKey p == k)).length))
            (firstKeys ((points.mergeSort
              (fun a b => decide (prio (vervoerderOf a) ≤ prio (vervoerderOf b)))).map
            coordKey)) := by
        refine List.map_congr_left ?_
        intro k _
        exact groupSpread_length _
      rw [hcongr, sum_group_sizes coordKey (points.mergeSort
        (fun a b => decide (prio (vervoerderOf a) ≤ prio (vervoerderOf b)))),
        List.length_mergeSort]
  · intro hz s hs
    simp only [spreadOverlappingMarkers] at hs
    rw [if_pos hz] at hs
    obtain ⟨m, _, rfl⟩ := List.mem_map.mp hs
    exact ⟨rfl, rfl⟩
  · intro hz s hs hnz
    have hmem := mem_spread_high (by omega) hs
    have hfeat := (mem_groupSpread hmem).1
    have hglen : 0 < ((points.mergeSort
        (fun a b => decide (prio (vervoerderOf a) ≤ prio (vervoerderOf b)))).filter
      (fun p => coordKey p == coordKey s.feature)).length :=
      List.length_pos.mpr (fun hnil => by simp [hnil] at hfeat)
    rw [hfilterlen] at hglen
    by_contra hle
    have h1 : (points.filter (fun p => coordKey p == coordKey s.feature)).length = 1 := by
      omega
    have hg1 : ((points.mergeSort
        (fun a b => decide (prio (vervoerderOf a) ≤ prio (vervoerderOf b)))).filter
      (fun p => coordKey p == coordKey s.feature)).length = 1 := by
      rw [hfilterlen]
      exact h1
    obtain ⟨hz1, hz2⟩ := (mem_groupSpread hmem).2 hg1
    rcases hnz with hnz | hnz
    · exact hnz hz1
    · exact hnz hz2
  · intro hz s hs h1
    have hmem := mem_spread_high (by omega) hs
    have hg1 : ((points.mergeSort
        (fun a b => decide (prio (vervoerderOf a) ≤ prio (vervoerderOf b)))).filter
      (fun p => coordKey p == coordKey s.feature)).length = 1 := by
      rw [hfilterlen]
      exact h1
    exact (mem_groupSpread hmem).2 hg1
  · intro g hg
    exact ⟨groupSpread_of_big hg, groupSpread_on_circle hg, groupSpread_offsets_nodup hg⟩

/-- Properties of the first marker used by the C9 witness. -/
def c9PropsA : PakketpuntProperties :=
  ⟨"Balie Noord", "Plein", "2", "PostNL", "servicepunt", 40, 52.5, 4.8⟩

/-- Properties of the second marker, at the same coordinates. -/
def c9PropsB : PakketpuntProperties :=
  ⟨"Balie Zuid", "Plein", "3", "DHL", "servicepunt", 60, 52.5, 4.8⟩

/-- First witness marker. -/
def c9PointA : PakketpuntFeature :=
  ⟨Geometry.point 4.8 52.5, FeatureProperties.pakketpunt c9PropsA⟩

/-- Second witness marker, sharing `c9PointA`'s coordinates. -/
def c9PointB : PakketpuntFeature :=
  ⟨Geometry.point 4.8 52.5, FeatureProperties.pakketpunt c9PropsB⟩

/-- Witness for C9 at two markers sharing coordinates: spreading preserves
the count at both zoom levels, all offsets vanish below zoom 15, and the
two-member group's offsets are pairwise distinct. -/
theorem c9_spread_overlapping_markers_witness :
    (spreadOverlappingMarkers (fun _ => 0) [c9PointA, c9PointB] 15).length = 2
    ∧ (spreadOverlappingMarkers (fun _ => 0) [c9PointA, c9PointB] 10).length = 2
    ∧ (∀ s ∈ spreadOverlappingMarkers (fun _ => 0) [c9PointA, c9PointB] 10,
        s.offsetLat = 0 ∧ s.offsetLng = 0)
    ∧ ((groupSpread [c9PointA, c9PointB]).map
        (fun s => (s.offsetLat, s.offsetLng))).Nodup :=
  ⟨(c9_spread_overlapping_markers (fun _ => 0) [c9PointA, c9PointB] 15).1.trans rfl,
   (c9_spread_overlapping_markers (fun _ => 0) [c9PointA, c9PointB] 10).1.trans rfl,
   (c9_spread_overlapping_markers (fun _ => 0) [c9PointA, c9PointB] 10).2.1 (by decide),
   ((c9_spread_overlapping_markers (fun _ => 0) [c9PointA, c9PointB] 15).2.2.2.2
      [c9PointA, c9PointB] (by decide)).2.2⟩
